import Mathlib

/-!
Shallow embedding of the inference-orchestration layer of the bibi-share
repository: the two service scripts under `flux__1-dev部署/main.py` and
`qwen-image-edit-2509部署/main.py`.  The external collaborators (the PIL
image library, the base64 codec, the torch generator, the FastAPI
request-validation front end, the filesystem seen by the UI adapter, and
the generative engine itself) are modelled as explicit Lean functions or
as parameters; the orchestration code itself is translated line by line.
Python strings are modelled as `List Char`, Python ints as `ℤ`, Python
floats as `ℚ`, byte strings as `List Nat` (each element < 256).
-/

/-- Python whitespace predicate used by `str.strip()` (ASCII part; the
source only ever strips prompts coming from JSON/text boxes). -/
def isPySpace (ch : Char) : Bool :=
  ch == ' ' || ch == '\t' || ch == '\n' || ch == '\r' || ch == '\x0b' || ch == '\x0c'

/-- Model of Python `str.strip()`: drop whitespace at both ends. -/
def pyStrip (s : List Char) : List Char :=
  ((s.dropWhile isPySpace).reverse.dropWhile isPySpace).reverse

/-- Model of Python `int(x)` on a float: truncation toward zero. -/
def pyInt (q : ℚ) : ℤ :=
  if 0 ≤ q then ⌊q⌋ else ⌈q⌉

/-- Model of Python `round(x)` on an exact value: round half to even. -/
def roundHalfEven (x : ℚ) : ℤ :=
  if Int.fract x = 1/2 then (if Even ⌊x⌋ then ⌊x⌋ else ⌊x⌋ + 1) else round x

/-- Model of Python `round(x, 2)`: round to two decimal places. -/
def pyRound2 (x : ℚ) : ℚ :=
  (roundHalfEven (x * 100) : ℚ) / 100

/-! ### In-memory images (model of the PIL `Image` objects the scripts handle) -/

/-- PIL color mode, as far as the source inspects it (`mode != "RGB"`). -/
inductive PMode where
  | RGB
  | L
  | RGBA
deriving DecidableEq

/-- Model of a PIL in-memory image: a color mode plus pixel data. -/
structure PILImage where
  mode : PMode
  pix : List Nat
deriving DecidableEq

/-- Model of `img.convert("RGB")`: the result is in RGB mode (the pixel
transformation itself is internal to PIL; the orchestration layer only
relies on the mode). -/
def convertRGB (img : PILImage) : PILImage :=
  { mode := PMode.RGB, pix := img.pix }

/-! ### Lossless raster serialization (model of PIL `save(format="PNG")` /
`Image.open`): a self-delimiting injective byte serialization with the PNG
magic header, standing in for the external lossless PNG format. -/

/-- The PNG signature bytes, as emitted by PIL. -/
def pngMagic : List Nat := [137, 80, 78, 71, 13, 10, 26, 10]

/-- Self-delimiting encoding of one natural number into bytes. -/
def encNat (n : Nat) : List Nat :=
  List.replicate n 1 ++ [0]

/-- Parse one `encNat`-encoded number, returning it and the rest. -/
def parseNat : List Nat → Except String (Nat × List Nat)
  | 0 :: rest => .ok (0, rest)
  | 1 :: rest =>
    match parseNat rest with
    | .ok (n, r) => .ok (n + 1, r)
    | .error e => .error e
  | _ => .error "cannot identify image file"

/-- Parse `k` consecutive `encNat`-encoded numbers. -/
def parseNats : Nat → List Nat → Except String (List Nat × List Nat)
  | 0, r => .ok ([], r)
  | k + 1, r =>
    match parseNat r with
    | .ok (n, r1) =>
      match parseNats k r1 with
      | .ok (ns, r2) => .ok (n :: ns, r2)
      | .error e => .error e
    | .error e => .error e

/-- Mode tag stored in the serialized stream. -/
def modeCode : PMode → Nat
  | PMode.RGB => 0
  | PMode.L => 1
  | PMode.RGBA => 2

/-- Model of `image.save(buffered, format="PNG")`: serialize an image to
bytes (PNG magic, then mode, then length-prefixed pixel data). -/
def pngSave (img : PILImage) : List Nat :=
  pngMagic ++ encNat (modeCode img.mode) ++ encNat img.pix.length ++
    img.pix.flatMap encNat

/-- Model of `Image.open(io.BytesIO(data))`: parse the serialized bytes
back into an image, failing on anything that is not a recognized stream. -/
def pilOpen (bs : List Nat) : Except String PILImage :=
  match bs with
  | 137 :: 80 :: 78 :: 71 :: 13 :: 10 :: 26 :: 10 :: rest =>
    match parseNat rest with
    | .ok (m, r1) =>
      match (match m with
             | 0 => some PMode.RGB
             | 1 => some PMode.L
             | 2 => some PMode.RGBA
             | _ => none) with
      | some mode =>
        match parseNat r1 with
        | .ok (len, r2) =>
          match parseNats len r2 with
          | .ok (pix, r3) =>
            if r3.isEmpty then .ok { mode := mode, pix := pix }
            else .error "cannot identify image file"
          | .error e => .error e
        | .error e => .error e
      | none => .error "cannot identify image file"
    | .error e => .error e
  | _ => .error "cannot identify image file"

/-! ### Base64 (model of Python `base64.b64encode` / `base64.b64decode`) -/

/-- The standard base64 alphabet. -/
def b64Alphabet : List Char :=
  "ABCDEFGHIJKLMNOPQRSTUVWXYZabcdefghijklmnopqrstuvwxyz0123456789+/".toList

/-- Character for a sextet value. -/
def b64Char (n : Nat) : Char :=
  b64Alphabet.getD n 'A'

/-- Sextet value of an alphabet character, `none` for anything else. -/
def b64Val (ch : Char) : Option Nat :=
  if b64Alphabet.contains ch then some (b64Alphabet.indexOf ch) else none

/-- Model of `base64.b64encode`: bytes to base64 text with padding. -/
def b64EncBytes : List Nat → List Char
  | [] => []
  | [a] => [b64Char (a / 4), b64Char (a % 4 * 16), '=', '=']
  | [a, b] => [b64Char (a / 4), b64Char (a % 4 * 16 + b / 16), b64Char (b % 16 * 4), '=']
  | a :: b :: c :: rest =>
    b64Char (a / 4) :: b64Char (a % 4 * 16 + b / 16) ::
      b64Char (b % 16 * 4 + c / 64) :: b64Char (c % 64) :: b64EncBytes rest

/-- Python's non-validating decoder first discards every character that is
neither in the alphabet nor padding. -/
def b64Filter (cs : List Char) : List Char :=
  cs.filter (fun ch => (b64Val ch).isSome || ch == '=')

/-- Decode base64 text (already filtered) quad by quad: a trailing
`xy==` quad yields one byte, a trailing `xyz=` quad two bytes, a full
quad three bytes; padding anywhere else is invalid, and any length that
is not a multiple of four is incorrect padding. -/
def b64Quads : List Char → Except String (List Nat)
  | [] => .ok []
  | p :: q :: r :: s :: rest =>
    match b64Val p, b64Val q with
    | some x, some y =>
      if r = '=' then
        if s = '=' ∧ rest = [] then .ok [x * 4 + y / 16]
        else .error "Invalid base64-encoded string"
      else
        match b64Val r with
        | some z =>
          if s = '=' then
            if rest = [] then .ok [x * 4 + y / 16, y % 16 * 16 + z / 4]
            else .error "Invalid base64-encoded string"
          else
            match b64Val s with
            | some w =>
              match b64Quads rest with
              | .ok bs =>
                .ok ((x * 4 + y / 16) :: (y % 16 * 16 + z / 4) :: (z % 4 * 64 + w) :: bs)
              | .error e => .error e
            | none => .error "Invalid base64-encoded string"
        | none => .error "Invalid base64-encoded string"
    | _, _ => .error "Invalid base64-encoded string"
  | _ => .error "Incorrect padding"

/-- Model of `base64.b64decode` (default non-validating mode). -/
def b64Decode (cs : List Char) : Except String (List Nat) :=
  b64Quads (b64Filter cs)

/-! ### The data-URI codec of `qwen-image-edit-2509部署/main.py`
(`image_to_base64`, lines 55-68, identical copy in the flux script;
`base64_to_image`, lines 71-85). -/

/-- `image_to_base64`: save as PNG, base64-encode, and prepend the data
URI tag `data:image/png;base64,`. -/
def image_to_base64 (img : PILImage) : List Char :=
  "data:image/png;base64,".toList ++ b64EncBytes (pngSave img)

/-- Model of Python `str.split(",")`. -/
def splitComma : List Char → List (List Char)
  | [] => [[]]
  | ch :: rest =>
    if ch = ',' then [] :: splitComma rest
    else
      match splitComma rest with
      | [] => [[ch]]
      | g :: gs => (ch :: g) :: gs

/-- The data-URI stripping step of `base64_to_image`:
`if "," in base64_str: base64_str = base64_str.split(",")[1]`. -/
def stripTag (s : List Char) : List Char :=
  if s.contains ',' then (splitComma s).getD 1 [] else s

/-- `base64_to_image`: strip the optional data-URI tag, base64-decode,
and open the bytes as an image. -/
def base64_to_image (s : List Char) : Except String PILImage :=
  match b64Decode (stripTag s) with
  | .ok bs => pilOpen bs
  | .error e => .error e

/-! ### Torch generator (model of `torch.Generator` / `torch.manual_seed`) -/

/-- Model of a torch random generator: fully determined by its device and
the seed it was last seeded with. -/
structure TorchGenerator where
  device : String
  seed : ℤ
deriving DecidableEq

/-- Model of `torch.Generator(device).manual_seed(seed)`. -/
def torchGeneratorManualSeed (device : String) (seed : ℤ) : TorchGenerator :=
  { device := device, seed := seed }

/-- Model of `torch.manual_seed(seed)`: seeds and returns the default CPU
generator. -/
def torchManualSeed (seed : ℤ) : TorchGenerator :=
  { device := "cpu", seed := seed }

/-! ### Classified HTTP outcomes -/

/-- Model of a raised `HTTPException(status_code, detail)`. -/
structure HTTPError where
  status : Nat
  detail : String
deriving DecidableEq

/-- Model of the HTTP response the API front end sends back: either the
handler's JSON body (FastAPI serves it with status 200) or an error body
with an explicit status code and a `detail` message. -/
inductive ApiResponse (α : Type) where
  | success (body : α)
  | failure (status : Nat) (detail : String)
deriving DecidableEq

/-- The HTTP status code carried by a response. -/
def respStatus : ApiResponse α → Nat
  | .success _ => 200
  | .failure code _ => code

/-- Model of the body FastAPI returns when the pydantic request model
rejects the request before the handler runs (its documented behavior:
status 422 with a `detail` list describing the violated constraint). -/
def fastapiValidationDetail : String :=
  "request field constraint violated"

namespace Flux

/-- `ImageGenerationRequest` (flux `main.py` lines 42-51): the pydantic
request model of `/v1/images/generations`, with its declared defaults. -/
structure ImageGenerationRequest where
  prompt : List Char
  height : ℤ := 1024
  width : ℤ := 1024
  guidance_scale : ℚ := 3.5
  num_inference_steps : ℤ := 50
  max_sequence_length : ℤ := 512
  seed : ℤ := 0
deriving DecidableEq

/-- The pydantic `Field` constraints of `ImageGenerationRequest`:
`prompt` min_length 1, `height`/`width` in [256, 2048], `guidance_scale`
in [0, 20], `num_inference_steps` in [10, 100], `max_sequence_length` in
[128, 1024]; `seed` is unconstrained. -/
def genFieldOk (r : ImageGenerationRequest) : Bool :=
  decide (1 ≤ r.prompt.length) &&
  decide (256 ≤ r.height) && decide (r.height ≤ 2048) &&
  decide (256 ≤ r.width) && decide (r.width ≤ 2048) &&
  decide (0 ≤ r.guidance_scale) && decide (r.guidance_scale ≤ 20) &&
  decide (10 ≤ r.num_inference_steps) && decide (r.num_inference_steps ≤ 100) &&
  decide (128 ≤ r.max_sequence_length) && decide (r.max_sequence_length ≤ 1024)

/-- The argument record passed to `pipeline(...)` by both flux adapters. -/
structure EngineArgs where
  prompt : List Char
  height : ℤ
  width : ℤ
  guidance_scale : ℚ
  num_inference_steps : ℤ
  max_sequence_length : ℤ
  generator : TorchGenerator
deriving DecidableEq

/-- The engine (`FluxPipeline` instance): a black box that takes the
argument record and either returns one image or raises (modelled as an
`Except` carrying the exception message). -/
def Engine : Type := EngineArgs → Except String PILImage

/-- The engine arguments the API handler builds from a request
(flux `main.py` lines 107-121): every field comes from the request, and
the generator is `torch.Generator("cpu").manual_seed(request.seed)`. -/
def engineArgs (req : ImageGenerationRequest) : EngineArgs :=
  { prompt := req.prompt
    height := req.height
    width := req.width
    guidance_scale := req.guidance_scale
    num_inference_steps := req.num_inference_steps
    max_sequence_length := req.max_sequence_length
    generator := torchGeneratorManualSeed "cpu" req.seed }

/-- The success body of `/v1/images/generations` (flux `main.py`
lines 137-150). -/
structure GenSuccess where
  image : List Char
  inference_time_seconds : ℚ
  encoding_time_seconds : ℚ
  total_time_seconds : ℚ
deriving DecidableEq

/-- `image_generation` (flux `main.py` lines 77-156), the handler body
after pydantic has accepted the request.  `clock` models the successive
values returned by `time.time()` (reads 0 and 1 bracket the engine call,
reads 2 and 3 bracket the base64 encode); an engine exception is caught
and re-raised as a 500. -/
def image_generation (E : Engine) (clock : ℕ → ℚ) (req : ImageGenerationRequest) :
    Except HTTPError GenSuccess :=
  if pyStrip req.prompt = [] then
    .error { status := 400, detail := "请输入提示词" }
  else
    let t0 := clock 0
    match E (engineArgs req) with
    | .error e => .error { status := 500, detail := "推理出错: " ++ e }
    | .ok img =>
      let t1 := clock 1
      let inferenceDuration := t1 - t0
      let t2 := clock 2
      let outputBase64 := image_to_base64 img
      let t3 := clock 3
      let base64Duration := t3 - t2
      .ok { image := outputBase64
            inference_time_seconds := pyRound2 inferenceDuration
            encoding_time_seconds := pyRound2 base64Duration
            total_time_seconds := pyRound2 (inferenceDuration + base64Duration) }

/-- The full API path of `POST /v1/images/generations`: FastAPI first
checks the pydantic field constraints (rejecting with 422), then runs the
handler, whose raised `HTTPException` becomes an error response. -/
def api (E : Engine) (clock : ℕ → ℚ) (req : ImageGenerationRequest) :
    ApiResponse GenSuccess :=
  if genFieldOk req then
    match image_generation E clock req with
    | .ok body => .success body
    | .error e => .failure e.status e.detail
  else
    .failure 422 fastapiValidationDetail

/-- The image of a generation response, if any. -/
def respImage : ApiResponse GenSuccess → Option (List Char)
  | .success body => some body.image
  | .failure _ _ => none

/-- Status message of a successful UI inference
(`f"推理完成！实际耗时: {inference_duration:.2f}秒"`; the duration is
rendered at two decimals, modelled through `pyRound2`). -/
def uiDoneMsg (d : ℚ) : String :=
  "推理完成！实际耗时: " ++ toString (pyRound2 d) ++ "秒"

/-- `inference` (flux `main.py` lines 159-223), the Gradio UI adapter for
generation: it takes the loosely-typed widget values (the step count
arrives as a float and is truncated with `int(...)`), returns
`(None, message)` on empty/whitespace prompt or on an engine exception,
and `(image, message)` on success; it never raises. -/
def inference (E : Engine) (clock : ℕ → ℚ) (prompt : List Char)
    (height width : ℤ) (guidance_scale : ℚ) (num_inference_steps : ℚ)
    (max_sequence_length seed : ℤ) : Option PILImage × String :=
  if pyStrip prompt = [] then
    (none, "请输入提示词")
  else
    let t0 := clock 0
    match E { prompt := prompt
              height := height
              width := width
              guidance_scale := guidance_scale
              num_inference_steps := pyInt num_inference_steps
              max_sequence_length := max_sequence_length
              generator := torchGeneratorManualSeed "cpu" seed } with
    | .error e => (none, "推理出错: " ++ e)
    | .ok img =>
      let t1 := clock 1
      (some img, uiDoneMsg (t1 - t0))

end Flux

namespace Qwen

/-- `ImageEditRequest` (qwen `main.py` lines 39-52): the pydantic request
model of `/v1/images/edits`, with its declared defaults. -/
structure ImageEditRequest where
  images : List (List Char)
  prompt : List Char
  negative_prompt : Option (List Char) := some " ".toList
  num_inference_steps : ℤ := 40
  guidance_scale : ℚ := 1.0
  true_cfg_scale : ℚ := 4.0
  seed : ℤ := 0
deriving DecidableEq

/-- The pydantic `Field` constraints of `ImageEditRequest`: `images`
min_items 1, `prompt` min_length 1, `num_inference_steps` in [10, 100],
`guidance_scale` in [0, 10], `true_cfg_scale` in [0, 10]. -/
def editFieldOk (r : ImageEditRequest) : Bool :=
  decide (1 ≤ r.images.length) &&
  decide (1 ≤ r.prompt.length) &&
  decide (10 ≤ r.num_inference_steps) && decide (r.num_inference_steps ≤ 100) &&
  decide (0 ≤ r.guidance_scale) && decide (r.guidance_scale ≤ 10) &&
  decide (0 ≤ r.true_cfg_scale) && decide (r.true_cfg_scale ≤ 10)

/-- Model of `request.negative_prompt or " "`: `None` and the empty
string (both falsy) are replaced by a single blank. -/
def pyOrBlank (np : Option (List Char)) : List Char :=
  match np with
  | none => " ".toList
  | some s => if s.isEmpty then " ".toList else s

/-- The keyword-argument record both qwen adapters pass to
`pipeline(**inputs)`. -/
structure EngineArgs where
  image : List PILImage
  prompt : List Char
  generator : TorchGenerator
  true_cfg_scale : ℚ
  negative_prompt : List Char
  num_inference_steps : ℤ
  guidance_scale : ℚ
  num_images_per_prompt : Nat
deriving DecidableEq

/-- The engine (`QwenImageEditPlusPipeline` instance), as a black box. -/
def Engine : Type := EngineArgs → Except String PILImage

/-- The engine arguments the API handler builds (qwen `main.py`
lines 229-239): the generator is `torch.manual_seed(request.seed)`. -/
def engineArgs (imgs : List PILImage) (req : ImageEditRequest) : EngineArgs :=
  { image := imgs
    prompt := req.prompt
    generator := torchManualSeed req.seed
    true_cfg_scale := req.true_cfg_scale
    negative_prompt := pyOrBlank req.negative_prompt
    num_inference_steps := req.num_inference_steps
    guidance_scale := req.guidance_scale
    num_images_per_prompt := 1 }

/-- Detail message of the per-image decode failure
(`f"无法处理第 {idx + 1} 张图片: {str(e)}"`, 1-based index). -/
def editDecodeFailMsg (n : Nat) (e : String) : String :=
  "无法处理第 " ++ toString n ++ " 张图片: " ++ e

/-- The decode loop of the API handler (qwen `main.py` lines 200-213):
decode each base64 image in order, convert non-RGB images to RGB, and
raise a 400 naming the 1-based index on the first failure. -/
def decodeImages : List (List Char) → Nat → Except HTTPError (List PILImage)
  | [], _ => .ok []
  | s :: rest, idx =>
    match base64_to_image s with
    | .error e => .error { status := 400, detail := editDecodeFailMsg (idx + 1) e }
    | .ok img =>
      let img := if img.mode ≠ PMode.RGB then convertRGB img else img
      match decodeImages rest (idx + 1) with
      | .ok imgs => .ok (img :: imgs)
      | .error e => .error e

/-- The validation-and-decode part of `image_edit` (qwen `main.py`
lines 192-219): everything the handler does before invoking the engine. -/
def prepare (req : ImageEditRequest) : Except HTTPError (List PILImage) :=
  if req.images.isEmpty then
    .error { status := 400, detail := "请至少提供一张图片" }
  else if pyStrip req.prompt = [] then
    .error { status := 400, detail := "请输入提示词" }
  else
    match decodeImages req.images 0 with
    | .error e => .error e
    | .ok pilImages =>
      if pilImages.isEmpty then
        .error { status := 400, detail := "无法处理图片，请确保提供有效的 base64 编码图片" }
      else
        .ok pilImages

/-- The success body of `/v1/images/edits` (qwen `main.py`
lines 251-260). -/
structure EditSuccess where
  image : List Char
  input_count : Nat
deriving DecidableEq

/-- `image_edit` (qwen `main.py` lines 172-266), the handler body after
pydantic has accepted the request: validate and decode, invoke the
engine, encode the output; engine exceptions become a 500. -/
def image_edit (E : Engine) (req : ImageEditRequest) : Except HTTPError EditSuccess :=
  match prepare req with
  | .error e => .error e
  | .ok pilImages =>
    match E (engineArgs pilImages req) with
    | .error e => .error { status := 500, detail := "推理出错: " ++ e }
    | .ok outputImage =>
      .ok { image := image_to_base64 outputImage, input_count := pilImages.length }

/-- The full API path of `POST /v1/images/edits`: pydantic field
constraints first (rejecting with 422), then the handler. -/
def api (E : Engine) (req : ImageEditRequest) : ApiResponse EditSuccess :=
  if editFieldOk req then
    match image_edit E req with
    | .ok body => .success body
    | .error e => .failure e.status e.detail
  else
    .failure 422 fastapiValidationDetail

/-! ### The Gradio UI adapter of the qwen script -/

/-- One element of the loosely-typed `files` value the UI adapter
receives: a PIL image, a path string, a file object with a `name`
attribute, a raw pixel array, or `None`. -/
inductive UIFile where
  | pil (img : PILImage)
  | path (p : List Char)
  | fileObj (name : List Char)
  | arr (a : List Nat)
  | noneF
deriving DecidableEq

/-- The external collaborators `process_uploaded_files` calls into: the
filesystem behind `Image.open(path)` and the array conversion
`Image.fromarray`, each of which may raise. -/
structure FileEnv where
  openPath : List Char → Except String PILImage
  fromArray : List Nat → Except String PILImage

/-- The image one list element yields, if its branch succeeds. -/
def readFile (env : FileEnv) : UIFile → Option PILImage
  | .noneF => none
  | .pil img => some img
  | .path p => (env.openPath p).toOption
  | .fileObj n => (env.openPath n).toOption
  | .arr a => (env.fromArray a).toOption

/-- `process_uploaded_files` (qwen `main.py` lines 88-126): walk the
list, skip `None` entries, read each file by its runtime type, and on any
exception log and `continue` — unreadable entries are silently dropped. -/
def process_uploaded_files (env : FileEnv) : List UIFile → List PILImage
  | [] => []
  | f :: rest =>
    match readFile env f with
    | some img => img :: process_uploaded_files env rest
    | none => process_uploaded_files env rest

/-- The pre-engine part of the UI `inference` (qwen `main.py`
lines 293-305): the `files` argument is `None` or a list of uploaded
values; empty input, whitespace prompt, and an empty processed list each
short-circuit with a user-facing message. -/
def uiPrepare (env : FileEnv) (files : Option (List UIFile)) (prompt : List Char) :
    Except String (List PILImage) :=
  match files with
  | none => .error "请至少上传一张图片"
  | some fs =>
    if fs.isEmpty then .error "请至少上传一张图片"
    else if pyStrip prompt = [] then .error "请输入提示词"
    else
      let images := process_uploaded_files env fs
      if images.isEmpty then
        .error "无法处理上传的图片，请确保上传的是有效的图片文件"
      else
        .ok images

/-- Status message of a successful UI edit. -/
def uiDoneMsg (n : Nat) : String :=
  "推理完成！已处理 " ++ toString n ++ " 张输入图片"

/-- `inference` (qwen `main.py` lines 269-337), the Gradio UI adapter for
editing: normalize the loose input, invoke the engine inside the
try/except, and always return an `(image?, status message)` pair — the
negative prompt is passed through as-is, the step count is truncated with
`int(...)`, and the generator is `torch.manual_seed(seed)`. -/
def inference (env : FileEnv) (E : Engine) (files : Option (List UIFile))
    (prompt negative_prompt : List Char) (num_inference_steps : ℚ)
    (guidance_scale true_cfg_scale : ℚ) (seed : ℤ) : Option PILImage × String :=
  match uiPrepare env files prompt with
  | .error m => (none, m)
  | .ok images =>
    match E { image := images
              prompt := prompt
              generator := torchManualSeed seed
              true_cfg_scale := true_cfg_scale
              negative_prompt := negative_prompt
              num_inference_steps := pyInt num_inference_steps
              guidance_scale := guidance_scale
              num_images_per_prompt := 1 } with
    | .error e => (none, "推理出错: " ++ e)
    | .ok outputImage => (some outputImage, uiDoneMsg images.length)

end Qwen

/-! ### Helper lemmas -/

instance {ε α : Type} [DecidableEq ε] [DecidableEq α] : DecidableEq (Except ε α) := fun x y =>
  match x, y with
  | .ok a, .ok b =>
    if h : a = b then isTrue (by rw [h]) else isFalse (by simp [h])
  | .error a, .error b =>
    if h : a = b then isTrue (by rw [h]) else isFalse (by simp [h])
  | .ok _, .error _ => isFalse (by simp)
  | .error _, .ok _ => isFalse (by simp)

theorem pyInt_intCast (n : ℤ) : pyInt (n : ℚ) = n := by
  unfold pyInt
  split <;> simp

theorem roundHalfEven_abs_le (x : ℚ) : |(roundHalfEven x : ℚ) - x| ≤ 1 / 2 := by
  unfold roundHalfEven
  split
  · rename_i h
    have hx : x = (⌊x⌋ : ℚ) + 1 / 2 := by
      have : Int.fract x = x - ⌊x⌋ := rfl
      rw [this] at h
      linarith
    split
    · rw [abs_le]
      constructor <;> linarith
    · rw [abs_le]
      push_cast
      constructor <;> linarith
  · rw [abs_sub_comm]
    exact abs_sub_round x

theorem roundHalfEven_nonneg (x : ℚ) (hx : 0 ≤ x) : 0 ≤ roundHalfEven x := by
  unfold roundHalfEven
  have hf : 0 ≤ ⌊x⌋ := Int.floor_nonneg.mpr hx
  split
  · split
    · exact hf
    · omega
  · rw [round_eq]
    exact Int.floor_nonneg.mpr (by linarith)

theorem pyRound2_nonneg (x : ℚ) (hx : 0 ≤ x) : 0 ≤ pyRound2 x := by
  unfold pyRound2
  have : (0 : ℚ) ≤ (roundHalfEven (x * 100) : ℚ) := by
    exact_mod_cast roundHalfEven_nonneg _ (by linarith)
  positivity

theorem abs_pyRound2_sub (x : ℚ) : |pyRound2 x - x| ≤ 1 / 200 := by
  have h := roundHalfEven_abs_le (x * 100)
  have hrw : pyRound2 x - x = ((roundHalfEven (x * 100) : ℚ) - x * 100) / 100 := by
    unfold pyRound2
    ring
  rw [hrw, abs_div]
  rw [show |(100 : ℚ)| = 100 by norm_num]
  rw [div_le_iff₀ (by norm_num : (0 : ℚ) < 100)]
  linarith

theorem encNat_mem_lt (n : Nat) : ∀ x ∈ encNat n, x < 256 := by
  intro x hx
  simp only [encNat, List.mem_append, List.mem_replicate, List.mem_singleton] at hx
  rcases hx with ⟨_, h⟩ | h <;> omega

theorem pngSave_mem_lt (img : PILImage) : ∀ x ∈ pngSave img, x < 256 := by
  intro x hx
  simp only [pngSave, pngMagic, List.mem_append, List.mem_flatMap, List.mem_cons,
    List.not_mem_nil, or_false] at hx
  rcases hx with ((h | h) | h) | ⟨b, _, h⟩
  · rcases h with h | h | h | h | h | h | h | h <;> omega
  · exact encNat_mem_lt _ _ h
  · exact encNat_mem_lt _ _ h
  · exact encNat_mem_lt _ _ h

theorem parseNat_encNat (n : Nat) (r : List Nat) : parseNat (encNat n ++ r) = .ok (n, r) := by
  induction n with
  | zero => simp [encNat, parseNat]
  | succ k ih =>
    have h : encNat (k + 1) ++ r = 1 :: (encNat k ++ r) := by
      simp [encNat, List.replicate_succ]
    rw [h]
    simp [parseNat, ih]

theorem parseNats_flatMap (l : List Nat) (r : List Nat) :
    parseNats l.length (l.flatMap encNat ++ r) = .ok (l, r) := by
  induction l generalizing r with
  | nil => simp [parseNats]
  | cons x xs ih =>
    simp only [List.length_cons, List.flatMap_cons, List.append_assoc, parseNats,
      parseNat_encNat, ih]

theorem parseNats_flatMap_nil (l : List Nat) :
    parseNats l.length (l.flatMap encNat) = .ok (l, []) := by
  simpa using parseNats_flatMap l []

theorem pilOpen_pngSave (img : PILImage) : pilOpen (pngSave img) = .ok img := by
  obtain ⟨mode, pix⟩ := img
  have h1 : pngSave ⟨mode, pix⟩ =
      137 :: 80 :: 78 :: 71 :: 13 :: 10 :: 26 :: 10 ::
        (encNat (modeCode mode) ++ (encNat pix.length ++ pix.flatMap encNat)) := by
    simp [pngSave, pngMagic]
  rw [h1]
  cases mode <;>
    simp [pilOpen, modeCode, parseNat_encNat, parseNats_flatMap_nil]

theorem b64Val_b64Char (x : Nat) (h : x < 64) : b64Val (b64Char x) = some x := by
  have hall : ∀ y : Nat, y < 64 → b64Val (b64Char y) = some y := by decide
  exact hall x h

theorem b64Char_default (x : Nat) (h : 64 ≤ x) : b64Char x = 'A' := by
  apply List.getD_eq_default
  simpa [b64Alphabet] using h

theorem b64Val_b64Char_isSome (x : Nat) : (b64Val (b64Char x)).isSome := by
  by_cases h : x < 64
  · rw [b64Val_b64Char x h]
    rfl
  · rw [b64Char_default x (by omega)]
    decide

theorem b64Char_ne_comma (x : Nat) : b64Char x ≠ ',' := by
  by_cases h : x < 64
  · have hall : ∀ y : Nat, y < 64 → b64Char y ≠ ',' := by decide
    exact hall x h
  · rw [b64Char_default x (by omega)]
    decide

theorem comma_not_mem_b64EncBytes (bs : List Nat) : ',' ∉ b64EncBytes bs := by
  induction bs using b64EncBytes.induct with
  | case1 => simp [b64EncBytes]
  | case2 a =>
    simp only [b64EncBytes, List.mem_cons, List.not_mem_nil]
    intro h
    rcases h with h | h | h | h <;> first
      | exact b64Char_ne_comma _ h.symm
      | simp_all
  | case3 a b =>
    simp only [b64EncBytes, List.mem_cons, List.not_mem_nil]
    intro h
    rcases h with h | h | h | h <;> first
      | exact b64Char_ne_comma _ h.symm
      | simp_all
  | case4 a b c rest ih =>
    simp only [b64EncBytes, List.mem_cons]
    intro h
    rcases h with h | h | h | h | h <;> first
      | exact b64Char_ne_comma _ h.symm
      | exact ih h

theorem b64Filter_encBytes (bs : List Nat) : b64Filter (b64EncBytes bs) = b64EncBytes bs := by
  unfold b64Filter
  rw [List.filter_eq_self]
  intro ch hch
  suffices hs : (b64Val ch).isSome ∨ ch = '=' by
    rcases hs with h | h <;> simp [h]
  induction bs using b64EncBytes.induct with
  | case1 => simp [b64EncBytes] at hch
  | case2 a =>
    simp only [b64EncBytes, List.mem_cons, List.not_mem_nil, or_false] at hch
    rcases hch with h | h | h | h <;>
      first
        | exact Or.inl (h ▸ b64Val_b64Char_isSome _)
        | exact Or.inr h
  | case3 a b =>
    simp only [b64EncBytes, List.mem_cons, List.not_mem_nil, or_false] at hch
    rcases hch with h | h | h | h <;>
      first
        | exact Or.inl (h ▸ b64Val_b64Char_isSome _)
        | exact Or.inr h
  | case4 a b c rest ih =>
    simp only [b64EncBytes, List.mem_cons] at hch
    rcases hch with h | h | h | h | h <;>
      first
        | exact Or.inl (h ▸ b64Val_b64Char_isSome _)
        | exact ih h

theorem b64Char_ne_eq (x : Nat) : b64Char x ≠ '=' := by
  by_cases h : x < 64
  · have hall : ∀ y : Nat, y < 64 → b64Char y ≠ '=' := by decide
    exact hall x h
  · rw [b64Char_default x (by omega)]
    decide

theorem b64Quads_encBytes (bs : List Nat) (hb : ∀ b ∈ bs, b < 256) :
    b64Quads (b64EncBytes bs) = .ok bs := by
  induction bs using b64EncBytes.induct with
  | case1 => rfl
  | case2 a =>
    have ha : a < 256 := hb a (by simp)
    rw [b64EncBytes]
    simp only [b64Quads, b64Val_b64Char (a / 4) (by omega),
      b64Val_b64Char (a % 4 * 16) (by omega), if_pos rfl, if_pos (And.intro rfl rfl)]
    have h1 : a / 4 * 4 + a % 4 * 16 / 16 = a := by omega
    rw [h1]
    simp
  | case3 a b =>
    have ha : a < 256 := hb a (by simp)
    have hbb : b < 256 := hb b (by simp)
    rw [b64EncBytes]
    simp only [b64Quads, b64Val_b64Char (a / 4) (by omega),
      b64Val_b64Char (a % 4 * 16 + b / 16) (by omega),
      b64Val_b64Char (b % 16 * 4) (by omega),
      if_neg (b64Char_ne_eq (b % 16 * 4)), if_pos rfl]
    have h1 : a / 4 * 4 + (a % 4 * 16 + b / 16) / 16 = a := by omega
    have h2 : (a % 4 * 16 + b / 16) % 16 * 16 + b % 16 * 4 / 4 = b := by omega
    rw [h1, h2]
    simp
  | case4 a b c rest ih =>
    have ha : a < 256 := hb a (by simp)
    have hbb : b < 256 := hb b (by simp)
    have hc : c < 256 := hb c (by simp)
    have hrest : ∀ x ∈ rest, x < 256 := fun x hx => hb x (by simp [hx])
    rw [b64EncBytes]
    simp only [b64Quads, b64Val_b64Char (a / 4) (by omega),
      b64Val_b64Char (a % 4 * 16 + b / 16) (by omega),
      b64Val_b64Char (b % 16 * 4 + c / 64) (by omega),
      b64Val_b64Char (c % 64) (by omega),
      if_neg (b64Char_ne_eq (b % 16 * 4 + c / 64)),
      if_neg (b64Char_ne_eq (c % 64)), ih hrest]
    have h1 : a / 4 * 4 + (a % 4 * 16 + b / 16) / 16 = a := by omega
    have h2 : (a % 4 * 16 + b / 16) % 16 * 16 + (b % 16 * 4 + c / 64) / 4 = b := by omega
    have h3 : (b % 16 * 4 + c / 64) % 4 * 64 + c % 64 = c := by omega
    rw [h1, h2, h3]

theorem b64Decode_encBytes (bs : List Nat) (hb : ∀ b ∈ bs, b < 256) :
    b64Decode (b64EncBytes bs) = .ok bs := by
  rw [b64Decode, b64Filter_encBytes, b64Quads_encBytes bs hb]

theorem splitComma_ne_nil (xs : List Char) : splitComma xs ≠ [] := by
  cases xs with
  | nil => simp [splitComma]
  | cons c r =>
    rw [splitComma]
    split
    · simp
    · split <;> simp

theorem splitComma_no_comma (xs : List Char) (h : ',' ∉ xs) : splitComma xs = [xs] := by
  induction xs with
  | nil => rfl
  | cons c r ih =>
    have hc : c ≠ ',' := fun hc => h (hc ▸ List.mem_cons_self c r)
    have hr : ',' ∉ r := fun hr => h (List.mem_cons_of_mem c hr)
    rw [splitComma, if_neg hc, ih hr]

theorem splitComma_append_comma (pre rest : List Char) (h : ',' ∉ pre) :
    splitComma (pre ++ ',' :: rest) = pre :: splitComma rest := by
  induction pre with
  | nil => simp [splitComma]
  | cons c p ih =>
    have hc : c ≠ ',' := fun hc => h (hc ▸ List.mem_cons_self c p)
    have hp : ',' ∉ p := fun hp => h (List.mem_cons_of_mem c hp)
    rw [List.cons_append, splitComma, if_neg hc, ih hp]

theorem splitComma_head (xs : List Char) :
    (splitComma xs).getD 0 [] = xs.takeWhile (fun ch => ch != ',') := by
  induction xs with
  | nil => rfl
  | cons c r ih =>
    rw [splitComma]
    by_cases hc : c = ','
    · subst hc
      simp [List.takeWhile_cons]
    · rw [if_neg hc]
      obtain ⟨g, gs, hg⟩ : ∃ g gs, splitComma r = g :: gs := by
        cases h : splitComma r with
        | nil => exact absurd h (splitComma_ne_nil r)
        | cons g gs => exact ⟨g, gs, rfl⟩
      rw [hg]
      rw [hg] at ih
      simp only [List.getD_cons_zero] at ih
      simp [List.takeWhile_cons, hc, ← ih]

theorem stripTag_no_comma (s : List Char) (h : ',' ∉ s) : stripTag s = s := by
  rw [stripTag, if_neg (by simpa using h)]

theorem stripTag_append_comma (pre rest : List Char) (h : ',' ∉ pre) :
    stripTag (pre ++ ',' :: rest) = rest.takeWhile (fun ch => ch != ',') := by
  rw [stripTag, if_pos (by simp)]
  rw [splitComma_append_comma pre rest h]
  simpa using splitComma_head rest

theorem takeWhile_no_comma (xs : List Char) (h : ',' ∉ xs) :
    xs.takeWhile (fun ch => ch != ',') = xs := by
  rw [List.takeWhile_eq_self_iff]
  intro a ha
  have : a ≠ ',' := fun hc => h (hc ▸ ha)
  simpa using this

theorem dataUriTag_decomp (p : List Char) :
    "data:image/png;base64,".toList ++ p = "data:image/png;base64".toList ++ ',' :: p := by
  rfl

theorem stripTag_image_to_base64 (img : PILImage) :
    stripTag (image_to_base64 img) = b64EncBytes (pngSave img) := by
  rw [image_to_base64, dataUriTag_decomp]
  rw [stripTag_append_comma _ _ (by decide)]
  exact takeWhile_no_comma _ (comma_not_mem_b64EncBytes _)

theorem base64_to_image_encode (img : PILImage) :
    base64_to_image (image_to_base64 img) = .ok img := by
  rw [base64_to_image, stripTag_image_to_base64]
  rw [b64Decode_encBytes _ (pngSave_mem_lt img)]
  exact pilOpen_pngSave img

theorem base64_to_image_encode_stripped (img : PILImage) :
    base64_to_image (b64EncBytes (pngSave img)) = .ok img := by
  rw [base64_to_image, stripTag_no_comma _ (comma_not_mem_b64EncBytes _)]
  rw [b64Decode_encBytes _ (pngSave_mem_lt img)]
  exact pilOpen_pngSave img

namespace Qwen

theorem decodeImages_fail (ss : List (List Char)) (idx j : Nat) (s : List Char) (e : String)
    (hs : ss[j]? = some s) (hfail : base64_to_image s = .error e)
    (hprev : ∀ k, k < j → ∀ s', ss[k]? = some s' → ∃ i, base64_to_image s' = .ok i) :
    decodeImages ss idx = .error { status := 400, detail := editDecodeFailMsg (idx + j + 1) e } := by
  induction ss generalizing idx j with
  | nil => simp at hs
  | cons hd tl ih =>
    cases j with
    | zero =>
      have hhd : hd = s := by simpa using hs
      subst hhd
      rw [decodeImages, hfail]
    | succ j' =>
      obtain ⟨i0, hi0⟩ := hprev 0 (by omega) hd (by simp)
      have htl : decodeImages tl (idx + 1) =
          .error { status := 400, detail := editDecodeFailMsg (idx + 1 + j' + 1) e } := by
        refine ih (idx + 1) j' (by simpa using hs) ?_
        intro k hk s' hs'
        exact hprev (k + 1) (by omega) s' (by simpa using hs')
      rw [decodeImages, hi0]
      simp only [htl]
      have harith : idx + 1 + j' + 1 = idx + (j' + 1) + 1 := by omega
      rw [harith]

theorem decodeImages_ok (ss : List (List Char)) (idx : Nat)
    (hall : ∀ s ∈ ss, ∃ i, base64_to_image s = .ok i) :
    ∃ imgs, decodeImages ss idx = .ok imgs ∧ imgs.length = ss.length := by
  induction ss generalizing idx with
  | nil => exact ⟨[], rfl, rfl⟩
  | cons hd tl ih =>
    obtain ⟨i0, hi0⟩ := hall hd (by simp)
    obtain ⟨imgs, himgs, hlen⟩ := ih (idx + 1) (fun s hs => hall s (by simp [hs]))
    refine ⟨(if i0.mode ≠ PMode.RGB then convertRGB i0 else i0) :: imgs, ?_, by simp [hlen]⟩
    rw [decodeImages, hi0]
    simp only [himgs]

theorem process_eq_filterMap (env : FileEnv) (fs : List UIFile) :
    process_uploaded_files env fs = fs.filterMap (readFile env) := by
  induction fs with
  | nil => rfl
  | cons f rest ih =>
    rw [process_uploaded_files]
    cases h : readFile env f <;> simp [h, ih]

end Qwen

/-! ### Concrete fixtures used by witnesses -/

/-- A small concrete in-memory image. -/
def testImg : PILImage := { mode := PMode.RGB, pix := [0, 1, 2] }

/-- A generation engine that always succeeds with `testImg`. -/
def okFluxEngine : Flux.Engine := fun _ => .ok testImg

/-- A generation engine that always raises. -/
def failFluxEngine : Flux.Engine := fun _ => .error "CUDA out of memory"

/-- An edit engine that always succeeds with `testImg`. -/
def okQwenEngine : Qwen.Engine := fun _ => .ok testImg

/-- A concrete monotone wall clock: the n-th `time.time()` call returns n. -/
def idClock : ℕ → ℚ := fun n => (n : ℚ)

/-- A concrete well-formed encoded image. -/
def goodImgText : List Char := image_to_base64 testImg

/-- A concrete malformed base64 payload (length 3 is not a multiple of 4). -/
def badImgText : List Char := "AAA".toList

/-! ### Claim theorems -/

/-- C5: codec round-trip — for every in-memory image,
`base64_to_image (image_to_base64 image)` succeeds with exactly the
original image, and decoding also succeeds on the encoded text with the
data-URI format tag already stripped off. -/
theorem C5_codec_roundtrip (img : PILImage) :
    base64_to_image (image_to_base64 img) = .ok img ∧
    base64_to_image (b64EncBytes (pngSave img)) = .ok img :=
  ⟨base64_to_image_encode img, base64_to_image_encode_stripped img⟩

/-- C6: `base64_to_image` first drops the optional format-tag prefix —
the text is unchanged when it holds no separator, and when it decomposes
as `pre ++ ',' :: rest` with no separator in `pre` the segment directly
after the first separator is kept — then base64-decodes the remainder
and parses the bytes as an image; it fails exactly when the remainder is
not validly base64-encoded or the decoded bytes are not a recognized
image stream. -/
theorem C6_decode_structure (s : List Char) :
    (base64_to_image s =
      match b64Decode (stripTag s) with
      | .ok bs => pilOpen bs
      | .error e => .error e) ∧
    (s.contains ',' = false → stripTag s = s) ∧
    (∀ pre rest, s = pre ++ ',' :: rest → ',' ∉ pre →
      stripTag s = rest.takeWhile (fun ch => ch != ',')) ∧
    ((∃ e, base64_to_image s = .error e) ↔
      (∃ e, b64Decode (stripTag s) = .error e) ∨
      (∃ bs e, b64Decode (stripTag s) = .ok bs ∧ pilOpen bs = .error e)) := by
  refine ⟨rfl, ?_, ?_, ?_⟩
  · intro h
    exact stripTag_no_comma s (by simpa using h)
  · intro pre rest hdec hpre
    subst hdec
    exact stripTag_append_comma pre rest hpre
  · rw [base64_to_image]
    cases hb : b64Decode (stripTag s) with
    | error e =>
      simp only
      constructor
      · intro _
        exact Or.inl ⟨e, rfl⟩
      · intro _
        exact ⟨e, rfl⟩
    | ok bs =>
      simp only
      cases hp : pilOpen bs with
      | error e =>
        constructor
        · intro _
          exact Or.inr ⟨bs, e, rfl, hp⟩
        · intro _
          exact ⟨e, rfl⟩
      | ok i =>
        constructor
        · rintro ⟨e, he⟩
          exact absurd he (by simp)
        · rintro (⟨e, he⟩ | ⟨bs', e, hbs', hp'⟩)
          · exact absurd he (by simp)
          · have hbseq : bs = bs' := by simpa using hbs'
            subst hbseq
            rw [hp] at hp'
            exact absurd hp' (by simp)

/-- Witness for C6 at a concrete input with two separators. -/
theorem C6_witness : stripTag ("a,b,c".toList) = "b".toList := by
  have h := (C6_decode_structure ("a,b,c".toList)).2.2.1 "a".toList "b,c".toList
    (by decide) (by decide)
  rw [h]
  decide

/-- Whether an API response is a client-error (validation-class) outcome. -/
def isClientErr : ApiResponse α → Bool
  | .failure code _ => code == 400 || code == 422
  | .success _ => false

namespace Flux

/-- The complete validation a generation request must pass before the
engine is invoked: the pydantic field constraints plus the handler's own
whitespace-prompt check. -/
def validateGeneration (req : ImageGenerationRequest) : Bool :=
  genFieldOk req && !(pyStrip req.prompt).isEmpty

/-- A request sitting exactly at the lower boundary of every bounded
field. -/
def boundaryLowReq : ImageGenerationRequest :=
  { prompt := "a".toList, height := 256, width := 256, guidance_scale := 0,
    num_inference_steps := 10, max_sequence_length := 128, seed := 0 }

/-- A request sitting exactly at the upper boundary of every bounded
field. -/
def boundaryHighReq : ImageGenerationRequest :=
  { prompt := "a".toList, height := 2048, width := 2048, guidance_scale := 20,
    num_inference_steps := 100, max_sequence_length := 1024, seed := 0 }

theorem pyStrip_ne_nil_length (s : List Char) (h : pyStrip s ≠ []) : 1 ≤ s.length := by
  cases s with
  | nil => exact absurd rfl h
  | cons c r => simp

theorem validateGeneration_iff (req : ImageGenerationRequest) :
    validateGeneration req = true ↔
      (256 ≤ req.height ∧ req.height ≤ 2048 ∧ 256 ≤ req.width ∧ req.width ≤ 2048 ∧
       0 ≤ req.guidance_scale ∧ req.guidance_scale ≤ 20 ∧
       10 ≤ req.num_inference_steps ∧ req.num_inference_steps ≤ 100 ∧
       128 ≤ req.max_sequence_length ∧ req.max_sequence_length ≤ 1024 ∧
       pyStrip req.prompt ≠ []) := by
  rw [validateGeneration, genFieldOk]
  simp only [Bool.and_eq_true, Bool.not_eq_true', List.isEmpty_eq_false, ne_eq,
    decide_eq_true_eq]
  constructor
  · rintro ⟨⟨⟨⟨⟨⟨⟨⟨⟨⟨⟨_, h1⟩, h2⟩, h3⟩, h4⟩, h5⟩, h6⟩, h7⟩, h8⟩, h9⟩, h10⟩, h11⟩
    exact ⟨h1, h2, h3, h4, h5, h6, h7, h8, h9, h10, h11⟩
  · rintro ⟨h1, h2, h3, h4, h5, h6, h7, h8, h9, h10, h11⟩
    exact ⟨⟨⟨⟨⟨⟨⟨⟨⟨⟨⟨pyStrip_ne_nil_length _ h11, h1⟩, h2⟩, h3⟩, h4⟩, h5⟩, h6⟩,
      h7⟩, h8⟩, h9⟩, h10⟩, h11⟩

end Flux

/-- C3: bounds enforcement — a generation request draws a client-error
(validation) outcome exactly when validation fails; validation fails
exactly when a bounded field leaves its inclusive range or the prompt is
empty or whitespace-only; and the two requests sitting exactly at the
boundary values pass validation. -/
theorem C3_bounds_enforcement :
    (∀ (E : Flux.Engine) (clock : ℕ → ℚ) (req : Flux.ImageGenerationRequest),
      isClientErr (Flux.api E clock req) = !Flux.validateGeneration req) ∧
    (∀ req : Flux.ImageGenerationRequest,
      Flux.validateGeneration req = false ↔
        (req.height < 256 ∨ 2048 < req.height ∨ req.width < 256 ∨ 2048 < req.width ∨
         req.guidance_scale < 0 ∨ 20 < req.guidance_scale ∨
         req.num_inference_steps < 10 ∨ 100 < req.num_inference_steps ∨
         req.max_sequence_length < 128 ∨ 1024 < req.max_sequence_length ∨
         pyStrip req.prompt = [])) ∧
    Flux.validateGeneration Flux.boundaryLowReq = true ∧
    Flux.validateGeneration Flux.boundaryHighReq = true := by
  refine ⟨?_, ?_, by decide, by decide⟩
  · intro E clock req
    rw [Flux.api, Flux.image_generation, Flux.validateGeneration]
    by_cases hg : Flux.genFieldOk req
    · rw [if_pos hg, hg]
      by_cases hp : pyStrip req.prompt = []
      · rw [if_pos hp]
        simp [isClientErr, hp]
      · rw [if_neg hp]
        cases hE : E (Flux.engineArgs req) <;>
          simp [isClientErr, List.isEmpty_eq_false.mpr hp]
    · rw [if_neg hg]
      simp only [Bool.not_eq_true] at hg
      simp [isClientErr, hg]
  · intro req
    rw [← Bool.not_eq_true, Flux.validateGeneration_iff]
    constructor
    · intro h
      by_contra hneg
      push_neg at hneg
      exact h hneg
    · intro h hpos
      obtain ⟨h1, h2, h3, h4, h5, h6, h7, h8, h9, h10, h11⟩ := hpos
      rcases h with h | h | h | h | h | h | h | h | h | h | h <;>
        first
          | linarith
          | exact h11 h

/-- Witness for C3 at a concrete out-of-range request. -/
theorem C3_witness :
    Flux.validateGeneration
      { prompt := "a".toList, height := 100, width := 512, guidance_scale := 1,
        num_inference_steps := 20, max_sequence_length := 256, seed := 0 } = false := by
  rw [(C3_bounds_enforcement.2.1
    { prompt := "a".toList, height := 100, width := 512, guidance_scale := 1,
      num_inference_steps := 20, max_sequence_length := 256, seed := 0 })]
  left
  decide

/-- C4 counterexample: a generation request whose only defect is an
out-of-range height (100 < 256) — a validation failure in the claim's
sense — is answered with status 422 (FastAPI's request-model rejection),
not with the claimed 400. -/
theorem C4_counterexample :
    respStatus (Flux.api okFluxEngine idClock
      { prompt := "a cat".toList, height := 100, width := 512, guidance_scale := 1,
        num_inference_steps := 20, max_sequence_length := 256, seed := 0 }) = 422 ∧
    ¬ respStatus (Flux.api okFluxEngine idClock
      { prompt := "a cat".toList, height := 100, width := 512, guidance_scale := 1,
        num_inference_steps := 20, max_sequence_length := 256, seed := 0 }) = 400 := by
  constructor <;> decide

/-- C4 (amended): out-of-range bounded fields are rejected by the
request-model gate with a 422 client-error response carrying a detail
message; an empty or whitespace-only prompt is rejected by the handler
with 400 and a detail message; an engine exception yields 500 with a
detail message wrapping the engine's message; a successful engine call
yields 200; and a 500 can only arise on a request that passed
validation, so validation failures are always distinct from engine
failures. -/
theorem C4_error_classification (E : Flux.Engine) (clock : ℕ → ℚ)
    (req : Flux.ImageGenerationRequest) :
    (Flux.genFieldOk req = false →
      Flux.api E clock req = .failure 422 fastapiValidationDetail) ∧
    (Flux.genFieldOk req = true → pyStrip req.prompt = [] →
      Flux.api E clock req = .failure 400 "请输入提示词") ∧
    (∀ e, Flux.genFieldOk req = true → pyStrip req.prompt ≠ [] →
      E (Flux.engineArgs req) = .error e →
      Flux.api E clock req = .failure 500 ("推理出错: " ++ e)) ∧
    (∀ img, Flux.genFieldOk req = true → pyStrip req.prompt ≠ [] →
      E (Flux.engineArgs req) = .ok img →
      respStatus (Flux.api E clock req) = 200) ∧
    (respStatus (Flux.api E clock req) = 500 → Flux.validateGeneration req = true) := by
  refine ⟨?_, ?_, ?_, ?_, ?_⟩
  · intro hg
    rw [Flux.api, if_neg (by simp [hg])]
  · intro hg hp
    rw [Flux.api, if_pos hg, Flux.image_generation, if_pos hp]
  · intro e hg hp hE
    rw [Flux.api, if_pos hg, Flux.image_generation, if_neg hp]
    simp only [hE]
  · intro img hg hp hE
    rw [Flux.api, if_pos hg, Flux.image_generation, if_neg hp]
    simp only [hE]
    rfl
  · intro h500
    rw [Flux.api] at h500
    by_cases hg : Flux.genFieldOk req
    · rw [if_pos hg] at h500
      rw [Flux.image_generation] at h500
      by_cases hp : pyStrip req.prompt = []
      · rw [if_pos hp] at h500
        simp [respStatus] at h500
      · rw [Flux.validateGeneration, hg]
        simp [List.isEmpty_eq_false.mpr hp]
    · rw [if_neg hg] at h500
      simp [respStatus] at h500

/-- Witness for C4: the amended classification evaluated on a concrete
engine failure. -/
theorem C4_witness :
    Flux.api failFluxEngine idClock Flux.boundaryLowReq =
      .failure 500 ("推理出错: " ++ "CUDA out of memory") :=
  (C4_error_classification failFluxEngine idClock Flux.boundaryLowReq).2.2.1
    "CUDA out of memory" (by decide) (by decide) rfl

namespace Qwen

theorem editFieldOk_images_length (req : ImageEditRequest) (h : editFieldOk req = true) :
    1 ≤ req.images.length := by
  rw [editFieldOk] at h
  simp only [Bool.and_eq_true, decide_eq_true_eq] at h
  exact h.1.1.1.1.1.1.1

theorem api_fail_of_decode_fail (E : Engine) (req : ImageEditRequest) (j : Nat)
    (s : List Char) (e : String)
    (hf : editFieldOk req = true) (hp : pyStrip req.prompt ≠ [])
    (hs : req.images[j]? = some s) (hfail : base64_to_image s = .error e)
    (hprev : ∀ k, k < j → ∀ s', req.images[k]? = some s' →
      ∃ i, base64_to_image s' = .ok i) :
    api E req = .failure 400 (editDecodeFailMsg (j + 1) e) := by
  have hne : req.images ≠ [] := by
    intro hnil
    have := editFieldOk_images_length req hf
    rw [hnil] at this
    simp at this
  have hd : decodeImages req.images 0 =
      .error { status := 400, detail := editDecodeFailMsg (j + 1) e } := by
    have := decodeImages_fail req.images 0 j s e hs hfail hprev
    simpa using this
  rw [api, if_pos hf, image_edit, prepare,
    if_neg (by simp [List.isEmpty_eq_false.mpr hne]), if_neg hp]
  simp only [hd]

end Qwen

/-- A concrete edit request whose first two images decode and whose
third is malformed base64. -/
def editReq3 : Qwen.ImageEditRequest :=
  { images := [goodImgText, goodImgText, badImgText], prompt := "make it blue".toList,
    num_inference_steps := 40, guidance_scale := 1, true_cfg_scale := 4 }

/-- C2: for every edit request accepted by the request model, if the
image at (0-based) position j fails to decode while every earlier image
decodes, the whole request is rejected with a 400 client error whose
detail names the 1-based index j+1, and the response does not depend on
the engine — the engine is never invoked. -/
theorem C2_edit_decode_failure (E E2 : Qwen.Engine) (req : Qwen.ImageEditRequest)
    (j : Nat) (s : List Char) (e : String)
    (hf : Qwen.editFieldOk req = true)
    (hp : pyStrip req.prompt ≠ [])
    (hs : req.images[j]? = some s)
    (hfail : base64_to_image s = .error e)
    (hprev : ∀ k, k < j → ∀ s', req.images[k]? = some s' →
      ∃ i, base64_to_image s' = .ok i) :
    Qwen.api E req = .failure 400 (Qwen.editDecodeFailMsg (j + 1) e) ∧
    Qwen.api E req = Qwen.api E2 req := by
  have h1 := Qwen.api_fail_of_decode_fail E req j s e hf hp hs hfail hprev
  have h2 := Qwen.api_fail_of_decode_fail E2 req j s e hf hp hs hfail hprev
  exact ⟨h1, h1.trans h2.symm⟩

/-- Witness for C2: the request whose third image is malformed base64 is
rejected with a 400 naming index 3. -/
theorem C2_witness :
    Qwen.api okQwenEngine editReq3 =
      .failure 400 (Qwen.editDecodeFailMsg 3 "Incorrect padding") := by
  have hgood : base64_to_image goodImgText = .ok testImg := base64_to_image_encode testImg
  have h := C2_edit_decode_failure okQwenEngine okQwenEngine editReq3 2 badImgText
    "Incorrect padding" (by decide) (by decide) (by decide) (by decide) ?_
  · exact h.1
  · intro k hk s' hs'
    have hsg : s' = goodImgText := by
      interval_cases k <;> · simp only [editReq3] at hs'; simp at hs'; exact hs'.symm
    subst hsg
    exact ⟨testImg, hgood⟩

/-- A UI file environment in which every path open and every array
conversion fails. -/
def uiEnvFixture : Qwen.FileEnv :=
  { openPath := fun _ => .error "No such file or directory",
    fromArray := fun _ => .error "Cannot handle this data type" }

/-- A concrete mixed upload list: one readable in-memory image and one
unreadable path. -/
def fsFixture : List Qwen.UIFile :=
  [Qwen.UIFile.pil testImg, Qwen.UIFile.path "missing.png".toList]

/-- C8: per-image error-handling asymmetry — on a list holding both
readable and unreadable images the UI adapter silently drops every
unreadable entry and hands the engine exactly the readable ones, while
the API adapter rejects the whole request with a 400 at the first
unreadable image, independently of the engine. -/
theorem C8_adapter_asymmetry :
    (∀ (env : Qwen.FileEnv) (E : Qwen.Engine) (fs : List Qwen.UIFile)
       (prompt np : List Char) (st g tc : ℚ) (sd : ℤ),
      pyStrip prompt ≠ [] →
      fs.filterMap (Qwen.readFile env) ≠ [] →
      (∃ f ∈ fs, Qwen.readFile env f = none) →
      Qwen.uiPrepare env (some fs) prompt = .ok (fs.filterMap (Qwen.readFile env)) ∧
      Qwen.inference env E (some fs) prompt np st g tc sd =
        (match E { image := fs.filterMap (Qwen.readFile env), prompt := prompt,
                   generator := torchManualSeed sd, true_cfg_scale := tc,
                   negative_prompt := np, num_inference_steps := pyInt st,
                   guidance_scale := g, num_images_per_prompt := 1 } with
         | .error e => (none, "推理出错: " ++ e)
         | .ok img => (some img, Qwen.uiDoneMsg (fs.filterMap (Qwen.readFile env)).length))) ∧
    (∀ (E E2 : Qwen.Engine) (req : Qwen.ImageEditRequest) (j : Nat)
       (s : List Char) (e : String),
      Qwen.editFieldOk req = true → pyStrip req.prompt ≠ [] →
      req.images[j]? = some s → base64_to_image s = .error e →
      (∀ k, k < j → ∀ s', req.images[k]? = some s' →
        ∃ i, base64_to_image s' = .ok i) →
      ∃ d, Qwen.api E req = .failure 400 d ∧ Qwen.api E2 req = .failure 400 d) := by
  constructor
  · intro env E fs prompt np st g tc sd hp hne hbad
    have hfs : ¬ fs.isEmpty = true := by
      intro h
      rw [List.isEmpty_iff] at h
      subst h
      simp at hne
    have hpre : Qwen.uiPrepare env (some fs) prompt =
        .ok (fs.filterMap (Qwen.readFile env)) := by
      rw [Qwen.uiPrepare]
      simp only [if_neg hfs, if_neg hp, Qwen.process_eq_filterMap]
      rw [if_neg (by simp [List.isEmpty_eq_false.mpr hne])]
    refine ⟨hpre, ?_⟩
    rw [Qwen.inference, hpre]
  · intro E E2 req j s e hf hp hs hfail hprev
    exact ⟨Qwen.editDecodeFailMsg (j + 1) e,
      Qwen.api_fail_of_decode_fail E req j s e hf hp hs hfail hprev,
      Qwen.api_fail_of_decode_fail E2 req j s e hf hp hs hfail hprev⟩

/-- Witness for C8: on the concrete mixed list the UI adapter proceeds
with just the readable image. -/
theorem C8_witness :
    Qwen.uiPrepare uiEnvFixture (some fsFixture) ("edit".toList) = .ok [testImg] :=
  (C8_adapter_asymmetry.1 uiEnvFixture okQwenEngine fsFixture ("edit".toList)
    (" ".toList) 40 1 4 0 (by decide) (by decide) (by decide)).1

/-- C10: neither edit adapter ever invokes the engine on an empty image
list — whenever the API handler's validation-and-decode stage or the UI
adapter's normalization stage hands a list onward, that list is
non-empty, and when the API stage fails the handler's outcome does not
depend on the engine at all. -/
theorem C10_engine_needs_images :
    (∀ (req : Qwen.ImageEditRequest) (imgs : List PILImage),
      Qwen.prepare req = .ok imgs → imgs ≠ []) ∧
    (∀ (env : Qwen.FileEnv) (files : Option (List Qwen.UIFile)) (prompt : List Char)
       (imgs : List PILImage),
      Qwen.uiPrepare env files prompt = .ok imgs → imgs ≠ []) ∧
    (∀ (E E2 : Qwen.Engine) (req : Qwen.ImageEditRequest) (e : HTTPError),
      Qwen.prepare req = .error e → Qwen.image_edit E req = Qwen.image_edit E2 req) := by
  refine ⟨?_, ?_, ?_⟩
  · intro req imgs h
    rw [Qwen.prepare] at h
    split at h
    · simp at h
    · split at h
      · simp at h
      · split at h
        · simp at h
        · split at h
          · simp at h
          · rename_i hne
            injection h with h'
            subst h'
            simpa using hne
  · intro env files prompt imgs h
    cases files with
    | none => simp [Qwen.uiPrepare] at h
    | some fs =>
      simp only [Qwen.uiPrepare] at h
      split at h
      · simp at h
      · split at h
        · simp at h
        · split at h
          · simp at h
          · rename_i hne
            injection h with h'
            subst h'
            simpa using hne
  · intro E E2 req e h
    simp only [Qwen.image_edit, h]

/-- Witness for C10: the concrete normalized list handed onward is
non-empty. -/
theorem C10_witness : ([testImg] : List PILImage) ≠ [] :=
  C10_engine_needs_images.2.1 uiEnvFixture (some fsFixture) ("edit".toList) [testImg]
    (by decide)

/-- C9: for every successful generation call under a monotone wall
clock, the 200 response body carries three non-negative timing fields,
the inference and encoding durations are measured over separate clock
intervals, and the total field equals their sum up to the rounding of
the three fields to two decimals (within 3/200). -/
theorem C9_timing_fields (E : Flux.Engine) (clock : ℕ → ℚ)
    (req : Flux.ImageGenerationRequest) (img : PILImage)
    (hmono : ∀ i j, i ≤ j → clock i ≤ clock j)
    (hg : Flux.genFieldOk req = true)
    (hp : pyStrip req.prompt ≠ [])
    (hE : E (Flux.engineArgs req) = .ok img) :
    ∃ body, Flux.api E clock req = .success body ∧
      body.image = image_to_base64 img ∧
      body.inference_time_seconds = pyRound2 (clock 1 - clock 0) ∧
      body.encoding_time_seconds = pyRound2 (clock 3 - clock 2) ∧
      body.total_time_seconds = pyRound2 ((clock 1 - clock 0) + (clock 3 - clock 2)) ∧
      0 ≤ body.inference_time_seconds ∧
      0 ≤ body.encoding_time_seconds ∧
      0 ≤ body.total_time_seconds ∧
      |body.inference_time_seconds + body.encoding_time_seconds -
        body.total_time_seconds| ≤ 3 / 200 := by
  have h01 : clock 0 ≤ clock 1 := hmono 0 1 (by omega)
  have h23 : clock 2 ≤ clock 3 := hmono 2 3 (by omega)
  refine ⟨{ image := image_to_base64 img,
            inference_time_seconds := pyRound2 (clock 1 - clock 0),
            encoding_time_seconds := pyRound2 (clock 3 - clock 2),
            total_time_seconds :=
              pyRound2 ((clock 1 - clock 0) + (clock 3 - clock 2)) }, ?_, rfl, rfl, rfl, rfl,
    ?_, ?_, ?_, ?_⟩
  · rw [Flux.api, if_pos hg, Flux.image_generation, if_neg hp]
    simp only [hE]
  · exact pyRound2_nonneg _ (by linarith)
  · exact pyRound2_nonneg _ (by linarith)
  · exact pyRound2_nonneg _ (by linarith)
  · have ha := abs_pyRound2_sub (clock 1 - clock 0)
    have hb := abs_pyRound2_sub (clock 3 - clock 2)
    have hc := abs_pyRound2_sub ((clock 1 - clock 0) + (clock 3 - clock 2))
    rw [abs_le] at ha hb hc ⊢
    constructor <;> simp only [] <;> [linarith [ha.1, hb.1, hc.2]; linarith [ha.2, hb.2, hc.1]]

/-- Witness for C9 at a concrete clock, request, and engine. -/
theorem C9_witness :
    ∃ body, Flux.api okFluxEngine idClock Flux.boundaryLowReq = .success body ∧
      body.image = image_to_base64 testImg ∧
      body.inference_time_seconds = pyRound2 (idClock 1 - idClock 0) ∧
      body.encoding_time_seconds = pyRound2 (idClock 3 - idClock 2) ∧
      body.total_time_seconds =
        pyRound2 ((idClock 1 - idClock 0) + (idClock 3 - idClock 2)) ∧
      0 ≤ body.inference_time_seconds ∧
      0 ≤ body.encoding_time_seconds ∧
      0 ≤ body.total_time_seconds ∧
      |body.inference_time_seconds + body.encoding_time_seconds -
        body.total_time_seconds| ≤ 3 / 200 :=
  C9_timing_fields okFluxEngine idClock Flux.boundaryLowReq testImg
    (fun i j h => by simpa [idClock] using Nat.cast_le.mpr h)
    (by decide) (by decide) rfl

/-- C1: determinism — the image field of a generation response is
independent of the wall clock (the only hidden input), for the API and
UI adapters alike; the generator handed to the engine is a pure function
of the request's seed (built by `torch.Generator("cpu").manual_seed` for
generation and `torch.manual_seed` for edit); and two calls with
identical inputs against the same engine — one per adapter, under
different clocks — produce the same output image. -/
theorem C1_determinism :
    (∀ (E : Flux.Engine) (c c2 : ℕ → ℚ) (req : Flux.ImageGenerationRequest),
      Flux.respImage (Flux.api E c req) = Flux.respImage (Flux.api E c2 req)) ∧
    (∀ (E : Flux.Engine) (c c2 : ℕ → ℚ) (prompt : List Char) (h w : ℤ) (g st : ℚ)
       (ms sd : ℤ),
      (Flux.inference E c prompt h w g st ms sd).1 =
        (Flux.inference E c2 prompt h w g st ms sd).1) ∧
    (∀ req : Flux.ImageGenerationRequest,
      (Flux.engineArgs req).generator = torchGeneratorManualSeed "cpu" req.seed) ∧
    (∀ (imgs : List PILImage) (req : Qwen.ImageEditRequest),
      (Qwen.engineArgs imgs req).generator = torchManualSeed req.seed) ∧
    (∀ (E : Flux.Engine) (c c2 : ℕ → ℚ) (req : Flux.ImageGenerationRequest)
       (img : PILImage),
      Flux.genFieldOk req = true → pyStrip req.prompt ≠ [] →
      E (Flux.engineArgs req) = .ok img →
      Flux.respImage (Flux.api E c req) = some (image_to_base64 img) ∧
      (Flux.inference E c2 req.prompt req.height req.width req.guidance_scale
        (req.num_inference_steps : ℚ) req.max_sequence_length req.seed).1 = some img) := by
  refine ⟨?_, ?_, fun _ => rfl, fun _ _ => rfl, ?_⟩
  · intro E c c2 req
    by_cases hg : Flux.genFieldOk req
    · rw [Flux.api, Flux.api, if_pos hg, if_pos hg,
        Flux.image_generation, Flux.image_generation]
      by_cases hp : pyStrip req.prompt = []
      · rw [if_pos hp, if_pos hp]
      · rw [if_neg hp, if_neg hp]
        cases hE : E (Flux.engineArgs req) <;> simp [hE, Flux.respImage]
    · rw [Flux.api, Flux.api, if_neg hg, if_neg hg]
  · intro E c c2 prompt h w g st ms sd
    by_cases hp : pyStrip prompt = []
    · simp [Flux.inference, hp]
    · cases hE : E (⟨prompt, h, w, g, pyInt st, ms,
          torchGeneratorManualSeed "cpu" sd⟩ : Flux.EngineArgs) <;>
        simp [Flux.inference, hp, hE]
  · intro E c c2 req img hg hp hE
    have hrec : (⟨req.prompt, req.height, req.width, req.guidance_scale,
        pyInt (req.num_inference_steps : ℚ), req.max_sequence_length,
        torchGeneratorManualSeed "cpu" req.seed⟩ : Flux.EngineArgs) =
        Flux.engineArgs req := by
      rw [pyInt_intCast]
      rfl
    constructor
    · rw [Flux.api, if_pos hg, Flux.image_generation, if_neg hp]
      simp [hE, Flux.respImage]
    · rw [Flux.inference, if_neg hp, hrec, hE]

/-- Witness for C1: both adapters, run at the boundary request against
the same concrete engine, yield the same concrete image. -/
theorem C1_witness :
    Flux.respImage (Flux.api okFluxEngine idClock Flux.boundaryLowReq) =
      some (image_to_base64 testImg) ∧
    (Flux.inference okFluxEngine idClock Flux.boundaryLowReq.prompt
      Flux.boundaryLowReq.height Flux.boundaryLowReq.width
      Flux.boundaryLowReq.guidance_scale (Flux.boundaryLowReq.num_inference_steps : ℚ)
      Flux.boundaryLowReq.max_sequence_length Flux.boundaryLowReq.seed).1 =
      some testImg :=
  C1_determinism.2.2.2.2 okFluxEngine idClock idClock Flux.boundaryLowReq testImg
    (by decide) (by decide) rfl

/-- C7: the UI adapters are total — every call returns either
`(image, done-message)` or `(none, failure-message)`; in particular a
missing or empty upload list and an empty or whitespace-only prompt
yield `(none, message)` before the engine runs, and an engine exception
is caught and returned as `(none, wrapped message)`. -/
theorem C7_ui_never_raises :
    (∀ (env : Qwen.FileEnv) (E : Qwen.Engine) (files : Option (List Qwen.UIFile))
       (prompt np : List Char) (st g tc : ℚ) (sd : ℤ),
      (∃ img n, Qwen.inference env E files prompt np st g tc sd =
        (some img, Qwen.uiDoneMsg n)) ∨
      (∃ m, Qwen.inference env E files prompt np st g tc sd = (none, m))) ∧
    (∀ (env : Qwen.FileEnv) (E : Qwen.Engine) (prompt np : List Char) (st g tc : ℚ)
       (sd : ℤ),
      Qwen.inference env E none prompt np st g tc sd = (none, "请至少上传一张图片") ∧
      Qwen.inference env E (some []) prompt np st g tc sd =
        (none, "请至少上传一张图片")) ∧
    (∀ (env : Qwen.FileEnv) (E : Qwen.Engine) (fs : List Qwen.UIFile)
       (np : List Char) (st g tc : ℚ) (sd : ℤ) (prompt : List Char),
      pyStrip prompt = [] → fs ≠ [] →
      Qwen.inference env E (some fs) prompt np st g tc sd = (none, "请输入提示词")) ∧
    (∀ (env : Qwen.FileEnv) (E : Qwen.Engine) (files : Option (List Qwen.UIFile))
       (prompt np : List Char) (st g tc : ℚ) (sd : ℤ) (imgs : List PILImage)
       (e : String),
      Qwen.uiPrepare env files prompt = .ok imgs →
      E (⟨imgs, prompt, torchManualSeed sd, tc, np, pyInt st, g, 1⟩ :
        Qwen.EngineArgs) = .error e →
      Qwen.inference env E files prompt np st g tc sd = (none, "推理出错: " ++ e)) ∧
    (∀ (E : Flux.Engine) (clock : ℕ → ℚ) (prompt : List Char) (h w : ℤ) (g st : ℚ)
       (ms sd : ℤ),
      (∃ img d, Flux.inference E clock prompt h w g st ms sd =
        (some img, Flux.uiDoneMsg d)) ∨
      (∃ m, Flux.inference E clock prompt h w g st ms sd = (none, m))) ∧
    (∀ (E : Flux.Engine) (clock : ℕ → ℚ) (h w : ℤ) (g st : ℚ) (ms sd : ℤ)
       (prompt : List Char),
      pyStrip prompt = [] →
      Flux.inference E clock prompt h w g st ms sd = (none, "请输入提示词")) := by
  refine ⟨?_, ?_, ?_, ?_, ?_, ?_⟩
  · intro env E files prompt np st g tc sd
    cases hu : Qwen.uiPrepare env files prompt with
    | error m =>
      right
      exact ⟨m, by rw [Qwen.inference, hu]⟩
    | ok imgs =>
      cases hE : E (⟨imgs, prompt, torchManualSeed sd, tc, np, pyInt st, g, 1⟩ :
          Qwen.EngineArgs) with
      | error e =>
        right
        refine ⟨"推理出错: " ++ e, ?_⟩
        rw [Qwen.inference, hu]
        simp only [hE]
      | ok img =>
        left
        refine ⟨img, imgs.length, ?_⟩
        rw [Qwen.inference, hu]
        simp only [hE]
  · intro env E prompt np st g tc sd
    exact ⟨rfl, rfl⟩
  · intro env E fs np st g tc sd prompt hp hfs
    have hu : Qwen.uiPrepare env (some fs) prompt = .error "请输入提示词" := by
      rw [Qwen.uiPrepare, if_neg (by simp [List.isEmpty_eq_false.mpr hfs]), if_pos hp]
    rw [Qwen.inference, hu]
  · intro env E files prompt np st g tc sd imgs e hu hE
    rw [Qwen.inference, hu]
    simp only [hE]
  · intro E clock prompt h w g st ms sd
    by_cases hp : pyStrip prompt = []
    · right
      exact ⟨"请输入提示词", by rw [Flux.inference, if_pos hp]⟩
    · cases hE : E (⟨prompt, h, w, g, pyInt st, ms,
          torchGeneratorManualSeed "cpu" sd⟩ : Flux.EngineArgs) with
      | error e =>
        right
        refine ⟨"推理出错: " ++ e, ?_⟩
        rw [Flux.inference, if_neg hp]
        simp only [hE]
      | ok img =>
        left
        refine ⟨img, clock 1 - clock 0, ?_⟩
        rw [Flux.inference, if_neg hp]
        simp only [hE]
  · intro E clock h w g st ms sd prompt hp
    rw [Flux.inference, if_pos hp]

/-- Witness for C7: whitespace-only prompt at an otherwise valid upload
list returns a failure pair. -/
theorem C7_witness :
    Qwen.inference uiEnvFixture okQwenEngine (some fsFixture) ("   ".toList)
      (" ".toList) 40 1 4 0 = (none, "请输入提示词") :=
  C7_ui_never_raises.2.2.1 uiEnvFixture okQwenEngine fsFixture (" ".toList) 40 1 4 0
    ("   ".toList) (by decide) (by decide)
